import Mathlib

/-!
Shallow embedding of the matchmaking and session-lifecycle core of the
Rock-Paper-Scissors multiplayer server (src/domain/game.rs,
src/application/game_service.rs, src/application/matchmaking_service.rs).

Rust HashMaps are modelled as association lists with distinct keys
(insert replaces an existing binding, lookup returns the first binding);
the Vec-based waiting queue is a Lean list with push = append at the end
and Vec::pop = removal of the last element.  A HashMap index on a missing
key and an unwrap of a missing entry panic in Rust; both are modelled
explicitly as a `panicked` outcome.  Outbound broadcasts are modelled as
returned message values; the transport adapter is external to the core.
-/

namespace RPS

/-- Association-list lookup, modelling HashMap::get. -/
def alookup {α : Type} : List (String × α) → String → Option α
  | [], _ => none
  | (k, v) :: rest, key => if k = key then some v else alookup rest key

/-- Association-list insert-or-replace, modelling HashMap::insert. -/
def ainsert {α : Type} : List (String × α) → String → α → List (String × α)
  | [], key, v => [(key, v)]
  | (k, w) :: rest, key, v =>
      if k = key then (key, v) :: rest else (k, w) :: ainsert rest key v

/-- Association-list removal of a key, modelling HashMap::remove. -/
def aremove {α : Type} (l : List (String × α)) (key : String) : List (String × α) :=
  l.filter (fun e => e.1 ≠ key)

/-- `*map.get_mut(key).unwrap() += 1`: increments the binding, `none` when
the unwrap would panic. -/
def ainc (l : List (String × Nat)) (key : String) : Option (List (String × Nat)) :=
  match alookup l key with
  | some v => some (ainsert l key (v + 1))
  | none => none

/-- `scores.values().max().unwrap_or(&0)`. -/
def maxValues (l : List (String × Nat)) : Nat :=
  (l.map Prod.snd).foldr Nat.max 0

/-- domain/game.rs: the three-symbol move alphabet. -/
inductive GameChoice : Type where
  | rock
  | paper
  | scissors
deriving DecidableEq, Repr, Fintype

/-- domain/game.rs `GameChoice::beats`. -/
def GameChoice.beats : GameChoice → GameChoice → Bool
  | GameChoice.rock, GameChoice.scissors => true
  | GameChoice.paper, GameChoice.rock => true
  | GameChoice.scissors, GameChoice.paper => true
  | _, _ => false

/-- domain/game.rs `GameStatus`. -/
inductive GameStatus : Type where
  | waiting
  | playing
  | finished
deriving DecidableEq, Repr

/-- domain/game.rs `PlayerMove` (the timestamp is informational only). -/
structure PlayerMove : Type where
  choice : GameChoice
  timestamp : Nat
deriving DecidableEq, Repr

/-- domain/game.rs `GameConfig`. -/
structure GameConfig : Type where
  max_rounds : Nat
  min_players : Nat
  max_players : Nat
deriving DecidableEq, Repr

/-- domain/game.rs `GameResult`. -/
structure GameResult : Type where
  round : Nat
  winner : Option String
  moves : List (String × GameChoice)
  scores : List (String × Nat)
deriving DecidableEq, Repr

/-- game_service.rs `GameRoom`; players are kept by id (the outbound
sender is part of the transport collaborator). -/
structure GameRoom : Type where
  id : String
  players : List String
  current_round : Nat
  config : GameConfig
  scores : List (String × Nat)
  moves : List (String × PlayerMove)
  status : GameStatus
deriving DecidableEq, Repr

/-- game_service.rs `GameRoom::new`. -/
def GameRoom.new (id : String) (config : GameConfig) : GameRoom :=
  { id := id
    players := []
    current_round := 1
    config := config
    scores := []
    moves := []
    status := GameStatus.waiting }

/-- game_service.rs `GameRoom::add_player`. -/
def GameRoom.add_player (room : GameRoom) (pid : String) : GameRoom × Bool :=
  if room.config.max_players ≤ room.players.length then (room, false)
  else
    let room1 := { room with
      scores := ainsert room.scores pid 0
      players := room.players ++ [pid] }
    let room2 :=
      if room1.config.min_players ≤ room1.players.length then
        { room1 with status := GameStatus.playing }
      else room1
    (room2, true)

/-- game_service.rs `GameRoom::submit_move`: records the move and reports
whether every player has now moved. -/
def GameRoom.submit_move (room : GameRoom) (player_id : String)
    (choice : GameChoice) (now : Nat) : GameRoom × Bool :=
  if room.status ≠ GameStatus.playing then (room, false)
  else if ¬ room.players.contains player_id then (room, false)
  else
    let moves := ainsert room.moves player_id { choice := choice, timestamp := now }
    ({ room with moves := moves }, moves.length == room.players.length)

/-- Outcome of `calculate_round_result`: `Err("Invalid number of players")`,
a Rust panic (HashMap index on an absent key), or the computed result. -/
inductive CalcResult : Type where
  | invalidPlayers
  | panicked
  | ok (result : GameResult)
deriving DecidableEq, Repr

/-- game_service.rs `GameRoom::calculate_round_result`: errors unless the
player list has exactly two entries, then indexes the moves map by both
player ids (a missing key panics in Rust). -/
def GameRoom.calculate_round_result (room : GameRoom) : CalcResult :=
  match room.players with
  | [pid1, pid2] =>
      match alookup room.moves pid1, alookup room.moves pid2 with
      | some m1, some m2 =>
          let winner :=
            if m1.choice = m2.choice then none
            else if m1.choice.beats m2.choice then some pid1
            else some pid2
          CalcResult.ok
            { round := room.current_round
              winner := winner
              moves := room.moves.map (fun e => (e.1, e.2.choice))
              scores := room.scores }
      | _, _ => CalcResult.panicked
  | _ => CalcResult.invalidPlayers

/-- game_service.rs `GameRoom::should_end_game`. -/
def GameRoom.should_end_game (room : GameRoom) : Bool :=
  decide (2 ≤ maxValues room.scores ∨ room.config.max_rounds ≤ room.current_round)

/-- game_service.rs `GameRoom::determine_final_winner`: keeps the entries
whose score equals the maximum and reports a winner only when exactly one
entry remains. -/
def GameRoom.determine_final_winner (room : GameRoom) : Option String :=
  match room.scores.filter (fun e => e.2 == maxValues room.scores) with
  | [w] => some w.1
  | _ => none

/-- The `ServerMessage::RoundResult` broadcast. -/
structure RoundResultMsg : Type where
  round : Nat
  winner : Option String
  moves : List (String × GameChoice)
  scores : List (String × Nat)
deriving DecidableEq, Repr

/-- The broadcast that follows a round result: `ServerMessage::GameEnd`
or `ServerMessage::NextRound`. -/
inductive FollowupMsg : Type where
  | gameEnd (winner : Option String) (final_scores : List (String × Nat))
  | nextRound (round : Nat)
deriving DecidableEq, Repr

/-- game_service.rs `GameRoom::next_round`: increments the round counter,
clears the moves map, broadcasts the new round number. -/
def GameRoom.next_round (room : GameRoom) : GameRoom × FollowupMsg :=
  ({ room with current_round := room.current_round + 1, moves := [] },
   FollowupMsg.nextRound (room.current_round + 1))

/-- game_service.rs `GameRoom::end_game`: sets the status to Finished and
broadcasts the final winner with the final scores. -/
def GameRoom.end_game (room : GameRoom) : GameRoom × FollowupMsg :=
  ({ room with status := GameStatus.finished },
   FollowupMsg.gameEnd
     ({ room with status := GameStatus.finished } : GameRoom).determine_final_winner
     room.scores)

/-- Failure of `process_round`: a propagated `Err` or a Rust panic. -/
inductive ProcErr : Type where
  | invalidPlayers
  | panicked
deriving DecidableEq, Repr

/-- game_service.rs `GameRoom::process_round`: computes the round result,
increments the winner's score (an unwrap that panics when the winner has
no score entry), broadcasts the round result, then ends the game or
advances to the next round. -/
def GameRoom.process_round (room : GameRoom) :
    Except ProcErr (GameRoom × RoundResultMsg × FollowupMsg) :=
  match room.calculate_round_result with
  | CalcResult.invalidPlayers => Except.error ProcErr.invalidPlayers
  | CalcResult.panicked => Except.error ProcErr.panicked
  | CalcResult.ok result =>
      let scoresOpt :=
        match result.winner with
        | some winner_id => ainc room.scores winner_id
        | none => some room.scores
      match scoresOpt with
      | none => Except.error ProcErr.panicked
      | some newScores =>
          let room1 := { room with scores := newScores }
          let rr : RoundResultMsg :=
            { round := result.round
              winner := result.winner
              moves := result.moves
              scores := room1.scores }
          if room1.should_end_game then
            let step := room1.end_game
            Except.ok (step.1, rr, step.2)
          else
            let step := room1.next_round
            Except.ok (step.1, rr, step.2)

/-- The `ServerMessage::Matchmaking` reply. -/
structure MatchmakingMsg : Type where
  matched : Bool
  waiting : Option Bool
  room_id : Option String
deriving DecidableEq, Repr

/-- matchmaking_service.rs `GameManager`: the session registry, the
Vec-based waiting queue (players by id), and the playerId → roomId map. -/
structure GameManager : Type where
  rooms : List (String × GameRoom)
  waiting_queue : List String
  player_rooms : List (String × String)
  config : GameConfig
deriving DecidableEq, Repr

/-- matchmaking_service.rs `GameManager::create_match`: builds a fresh
room for both players, registers the room and both player mappings
(the generated Uuid is passed in as `room_id`). -/
def GameManager.create_match (gm : GameManager) (player1 player2 : String)
    (room_id : String) : GameManager × MatchmakingMsg :=
  let room0 := GameRoom.new room_id gm.config
  let room1 := (room0.add_player player1).1
  let room2 := (room1.add_player player2).1
  let gm1 := { gm with
    rooms := ainsert gm.rooms room_id room2
    player_rooms := ainsert (ainsert gm.player_rooms player1 room_id) player2 room_id }
  (gm1, { matched := true, waiting := none, room_id := some room_id })

/-- matchmaking_service.rs `GameManager::add_to_queue`: Vec::push appends
at the end of the queue. -/
def GameManager.add_to_queue (gm : GameManager) (player : String) :
    GameManager × MatchmakingMsg :=
  ({ gm with waiting_queue := gm.waiting_queue ++ [player] },
   { matched := false, waiting := some true, room_id := none })

/-- matchmaking_service.rs `GameManager::find_match`: `queue.pop()` on the
Vec removes and returns the LAST element; a popped player is matched with
the caller, otherwise the caller is enqueued. -/
def GameManager.find_match (gm : GameManager) (player : String)
    (new_room_id : String) : GameManager × MatchmakingMsg :=
  match gm.waiting_queue.getLast? with
  | some waiting_player =>
      ({ gm with waiting_queue := gm.waiting_queue.dropLast }).create_match
        waiting_player player new_room_id
  | none => gm.add_to_queue player

/-- matchmaking_service.rs `GameManager::get_player_room`; the room id is
returned alongside the room so mutations can be written back (the Rust
room is behind a shared `Arc<Mutex<_>>`). -/
def GameManager.get_player_room (gm : GameManager) (player_id : String) :
    Option (String × GameRoom) :=
  match alookup gm.player_rooms player_id with
  | some room_id =>
      match alookup gm.rooms room_id with
      | some room => some (room_id, room)
      | none => none
  | none => none

/-- matchmaking_service.rs `GameManager::submit_move`: forwards the move
to the caller's room when one is registered, runs `process_round` when the
room became ready, and returns `Ok(true)` whenever a room was found and
`Ok(false)` otherwise. -/
def GameManager.submit_move (gm : GameManager) (player_id : String)
    (choice : GameChoice) (now : Nat) : Except ProcErr (GameManager × Bool) :=
  match gm.get_player_room player_id with
  | some (room_id, room) =>
      if (room.submit_move player_id choice now).2 then
        match (room.submit_move player_id choice now).1.process_round with
        | Except.error e => Except.error e
        | Except.ok (room2, _, _) =>
            Except.ok ({ gm with rooms := ainsert gm.rooms room_id room2 }, true)
      else
        Except.ok
          ({ gm with
              rooms := ainsert gm.rooms room_id
                (room.submit_move player_id choice now).1 }, true)
  | none => Except.ok (gm, false)

/-- matchmaking_service.rs `GameManager::remove_player`: drops the player
from the waiting queue, removes the player's own mapping, and removes that
room from the registry; returns the removed room (the target of the
`notify_player_left` broadcast) when one was found. -/
def GameManager.remove_player (gm : GameManager) (player_id : String) :
    GameManager × Option (String × GameRoom) :=
  match alookup gm.player_rooms player_id with
  | some room_id =>
      match alookup gm.rooms room_id with
      | some room =>
          ({ gm with
              waiting_queue := gm.waiting_queue.filter (fun p => p != player_id)
              player_rooms := aremove gm.player_rooms player_id
              rooms := aremove gm.rooms room_id }, some (room_id, room))
      | none =>
          ({ gm with
              waiting_queue := gm.waiting_queue.filter (fun p => p != player_id)
              player_rooms := aremove gm.player_rooms player_id }, none)
  | none =>
      ({ gm with
          waiting_queue := gm.waiting_queue.filter (fun p => p != player_id) }, none)

/-! Projections used to state properties of `process_round` and
`GameManager.submit_move` results without existential quantifiers. -/

/-- Moves map of the room produced by a successful `process_round`. -/
def procMoves (r : Except ProcErr (GameRoom × RoundResultMsg × FollowupMsg)) :
    Option (List (String × PlayerMove)) :=
  match r with
  | Except.ok (room, _, _) => some room.moves
  | Except.error _ => none

/-- Round counter of the room produced by a successful `process_round`. -/
def procRoundNum (r : Except ProcErr (GameRoom × RoundResultMsg × FollowupMsg)) :
    Option Nat :=
  match r with
  | Except.ok (room, _, _) => some room.current_round
  | Except.error _ => none

/-- Status of the room produced by a successful `process_round`. -/
def procStatus (r : Except ProcErr (GameRoom × RoundResultMsg × FollowupMsg)) :
    Option GameStatus :=
  match r with
  | Except.ok (room, _, _) => some room.status
  | Except.error _ => none

/-- Whether `process_round` succeeded. -/
def procOk (r : Except ProcErr (GameRoom × RoundResultMsg × FollowupMsg)) : Bool :=
  match r with
  | Except.ok _ => true
  | Except.error _ => false

/-- Winner field of the broadcast round result. -/
def procWinner (r : Except ProcErr (GameRoom × RoundResultMsg × FollowupMsg)) :
    Option (Option String) :=
  match r with
  | Except.ok (_, rr, _) => some rr.winner
  | Except.error _ => none

/-- Scores map of the broadcast round result. -/
def procScores (r : Except ProcErr (GameRoom × RoundResultMsg × FollowupMsg)) :
    Option (List (String × Nat)) :=
  match r with
  | Except.ok (_, rr, _) => some rr.scores
  | Except.error _ => none

/-- One participant's score in the broadcast round result. -/
def procScoreOf (r : Except ProcErr (GameRoom × RoundResultMsg × FollowupMsg))
    (pid : String) : Option Nat :=
  match r with
  | Except.ok (_, rr, _) => alookup rr.scores pid
  | Except.error _ => none

/-- Boolean carried by a successful `GameManager.submit_move`. -/
def submitBool (r : Except ProcErr (GameManager × Bool)) : Option Bool :=
  match r with
  | Except.ok (_, b) => some b
  | Except.error _ => none

/-- Manager state produced by a successful `GameManager.submit_move`. -/
def smState (r : Except ProcErr (GameManager × Bool)) : Option GameManager :=
  match r with
  | Except.ok (g, _) => some g
  | Except.error _ => none

/-! Concrete fixtures: states of the system used to evaluate the
definitions on explicit inputs. -/

/-- The default configuration (best of 3 rounds, exactly 2 players). -/
def cfg : GameConfig := { max_rounds := 3, min_players := 2, max_players := 2 }

/-- A mid-match room in which both players have moved and player a's win
will reach the score threshold. -/
def roomBothMoved : GameRoom :=
  { id := "r1", players := ["a", "b"], current_round := 2, config := cfg,
    scores := [("a", 1), ("b", 0)],
    moves := [("a", { choice := GameChoice.rock, timestamp := 0 }),
              ("b", { choice := GameChoice.scissors, timestamp := 0 })],
    status := GameStatus.playing }

/-- A first-round room in which both players played the same symbol. -/
def roomDraw : GameRoom :=
  { id := "r1", players := ["a", "b"], current_round := 1, config := cfg,
    scores := [("a", 1), ("b", 0)],
    moves := [("a", { choice := GameChoice.rock, timestamp := 0 }),
              ("b", { choice := GameChoice.rock, timestamp := 0 })],
    status := GameStatus.playing }

/-- A room one move away from the end of the match: b has moved, and the
pending move by a will decide it. -/
def roomEndgame : GameRoom :=
  { id := "r1", players := ["a", "b"], current_round := 2, config := cfg,
    scores := [("a", 1), ("b", 0)],
    moves := [("b", { choice := GameChoice.scissors, timestamp := 0 })],
    status := GameStatus.playing }

/-- A manager whose registry holds `roomEndgame` with both players mapped. -/
def gmEndgame : GameManager :=
  { rooms := [("r1", roomEndgame)], waiting_queue := [],
    player_rooms := [("a", "r1"), ("b", "r1")], config := cfg }

/-- The manager state after a submits the match-ending move. -/
def gmAfterEndgame : GameManager :=
  match gmEndgame.submit_move "a" GameChoice.rock 5 with
  | Except.ok (g, _) => g
  | Except.error _ => gmEndgame

/-- A manager with two players waiting in the queue, p1 enqueued before p2
(such a queue arises when two concurrent match requests both observe an
empty queue before either enqueues itself). -/
def gmQueue2 : GameManager :=
  { rooms := [], waiting_queue := ["p1", "p2"], player_rooms := [], config := cfg }

/-- A two-player room in which only one player has a recorded move. -/
def roomMissingMove : GameRoom :=
  { id := "r1", players := ["a", "b"], current_round := 1, config := cfg,
    scores := [("a", 0), ("b", 0)],
    moves := [("a", { choice := GameChoice.rock, timestamp := 0 })],
    status := GameStatus.playing }

/-- A room holding a single player. -/
def roomOnePlayer : GameRoom :=
  { id := "r1", players := ["a"], current_round := 1, config := cfg,
    scores := [("a", 0)],
    moves := [],
    status := GameStatus.waiting }

/-- A room whose match is already over. -/
def roomDone : GameRoom :=
  { id := "r1", players := ["a", "b"], current_round := 3, config := cfg,
    scores := [("a", 2), ("b", 0)],
    moves := [],
    status := GameStatus.finished }

/-- A manager holding the finished `roomDone`, with player a still mapped. -/
def gmDone : GameManager :=
  { rooms := [("r1", roomDone)], waiting_queue := [],
    player_rooms := [("a", "r1")], config := cfg }

/-- A finished-scoring room with a unique top scorer: A 2, B 1. -/
def roomFinalAB : GameRoom :=
  { id := "r1", players := ["A", "B"], current_round := 3, config := cfg,
    scores := [("A", 2), ("B", 1)], moves := [], status := GameStatus.playing }

/-- A finished-scoring room with tied top scorers: A 1, B 1. -/
def roomFinalTie : GameRoom :=
  { id := "r1", players := ["A", "B"], current_round := 3, config := cfg,
    scores := [("A", 1), ("B", 1)], moves := [], status := GameStatus.playing }

/-- A ready room in which both players played the same symbol `c`. -/
def sameChoiceRoom (c : GameChoice) : GameRoom :=
  { id := "r1", players := ["p1", "p2"], current_round := 1, config := cfg,
    scores := [("p1", 0), ("p2", 0)],
    moves := [("p1", { choice := c, timestamp := 0 }),
              ("p2", { choice := c, timestamp := 0 })],
    status := GameStatus.playing }

/-- The move alphabet, listed. -/
def allChoices : List GameChoice :=
  [GameChoice.rock, GameChoice.paper, GameChoice.scissors]

/-! Lemmas about the association-list model of HashMap. -/

theorem alookup_ainsert_self {α : Type} (l : List (String × α)) (k : String) (v : α) :
    alookup (ainsert l k v) k = some v := by
  induction l with
  | nil => simp [ainsert, alookup]
  | cons e rest ih =>
      obtain ⟨k1, w⟩ := e
      by_cases h : k1 = k
      · simp [ainsert, h, alookup]
      · simp [ainsert, h, alookup, ih]

theorem alookup_ainsert_ne {α : Type} (l : List (String × α)) (k k2 : String) (v : α)
    (h : k2 ≠ k) : alookup (ainsert l k v) k2 = alookup l k2 := by
  have hk : ¬ k = k2 := fun he => h he.symm
  induction l with
  | nil => simp [ainsert, alookup, hk]
  | cons e rest ih =>
      obtain ⟨k1, w⟩ := e
      by_cases h1 : k1 = k
      · subst h1
        simp [ainsert, alookup, hk]
      · simp [ainsert, alookup, h1, ih]

theorem alookup_ainsert_isSome {α : Type} (l : List (String × α)) (k k2 : String)
    (v : α) (h : (alookup l k2).isSome = true) :
    (alookup (ainsert l k v) k2).isSome = true := by
  by_cases hk : k2 = k
  · subst hk
    rw [alookup_ainsert_self]
    rfl
  · rw [alookup_ainsert_ne l k k2 v hk]
    exact h

theorem alookup_aremove_self {α : Type} (l : List (String × α)) (k : String) :
    alookup (aremove l k) k = none := by
  induction l with
  | nil => rfl
  | cons e rest ih =>
      obtain ⟨k1, w⟩ := e
      by_cases h : k1 = k
      · simpa [aremove, List.filter_cons, h] using ih
      · simpa [aremove, List.filter_cons, h, alookup] using ih

theorem aremove_cons_eq {α : Type} (k1 k : String) (w : α) (rest : List (String × α))
    (h : k1 = k) : aremove ((k1, w) :: rest) k = aremove rest k := by
  simp [aremove, List.filter_cons, h]

theorem aremove_cons_ne {α : Type} (k1 k : String) (w : α) (rest : List (String × α))
    (h : ¬ k1 = k) : aremove ((k1, w) :: rest) k = (k1, w) :: aremove rest k := by
  simp [aremove, List.filter_cons, h]

theorem alookup_aremove_ne {α : Type} (l : List (String × α)) (k k2 : String)
    (h : k2 ≠ k) : alookup (aremove l k) k2 = alookup l k2 := by
  have hk : ¬ k = k2 := fun he => h he.symm
  induction l with
  | nil => rfl
  | cons e rest ih =>
      obtain ⟨k1, w⟩ := e
      by_cases h1 : k1 = k
      · rw [aremove_cons_eq k1 k w rest h1, ih]
        simp [alookup, h1, hk]
      · rw [aremove_cons_ne k1 k w rest h1]
        simp [alookup, ih]

/-! Lemmas about `maxValues` and the winner filter. -/

theorem maxValues_cons (e : String × Nat) (l : List (String × Nat)) :
    maxValues (e :: l) = Nat.max e.2 (maxValues l) := rfl

theorem le_maxValues {l : List (String × Nat)} {e : String × Nat} (h : e ∈ l) :
    e.2 ≤ maxValues l := by
  induction l with
  | nil => cases h
  | cons a t ih =>
      rw [maxValues_cons]
      rcases List.mem_cons.mp h with h | h
      · rw [h]
        exact Nat.le_max_left _ _
      · exact Nat.le_trans (ih h) (Nat.le_max_right _ _)

theorem maxValues_le {l : List (String × Nat)} {s : Nat}
    (h : ∀ e ∈ l, e.2 ≤ s) : maxValues l ≤ s := by
  induction l with
  | nil => exact Nat.zero_le s
  | cons a t ih =>
      rw [maxValues_cons]
      exact Nat.max_le.mpr
        ⟨h a (List.mem_cons_self a t), ih (fun e he => h e (List.mem_cons_of_mem a he))⟩

theorem filter_eq_nil_of_lt {l : List (String × Nat)} {s : Nat}
    (h : ∀ e ∈ l, e.2 < s) : l.filter (fun e => e.2 == s) = [] := by
  induction l with
  | nil => rfl
  | cons a t ih =>
      have ha : (a.2 == s) = false := by
        simp [Nat.ne_of_lt (h a (List.mem_cons_self a t))]
      rw [List.filter_cons, ha]
      simp only [Bool.false_eq_true, if_false]
      exact ih (fun e he => h e (List.mem_cons_of_mem a he))

theorem unique_max_filter {l : List (String × Nat)} {w : String} {s : Nat}
    (hmem : (w, s) ∈ l) (hnodup : (l.map Prod.fst).Nodup)
    (hdom : ∀ e ∈ l, e ≠ (w, s) → e.2 < s) :
    l.filter (fun e => e.2 == s) = [(w, s)] := by
  induction l with
  | nil => cases hmem
  | cons a t ih =>
      rw [List.map_cons] at hnodup
      rcases List.mem_cons.mp hmem with ha | ha
      · subst ha
        have htail : ∀ e ∈ t, e.2 < s := by
          intro e he
          refine hdom e (List.mem_cons_of_mem _ he) ?_
          intro hee
          subst hee
          have hw : (w, s).1 ∈ t.map Prod.fst := List.mem_map_of_mem Prod.fst he
          exact (List.nodup_cons.mp hnodup).1 hw
        simp [List.filter_cons, filter_eq_nil_of_lt htail]
      · have hane : a ≠ (w, s) := by
          intro he
          have hw : (w : String) ∈ t.map Prod.fst := List.mem_map_of_mem Prod.fst ha
          have hhead := (List.nodup_cons.mp hnodup).1
          rw [he] at hhead
          exact hhead hw
        have halt : a.2 < s := hdom a (List.mem_cons_self a t) hane
        have hfa : (a.2 == s) = false := by simp [Nat.ne_of_lt halt]
        rw [List.filter_cons, hfa]
        simp only [Bool.false_eq_true, if_false]
        exact ih ha (List.nodup_cons.mp hnodup).2
          (fun e he hne => hdom e (List.mem_cons_of_mem a he) hne)

theorem maxValues_eq_of_dom {l : List (String × Nat)} {w : String} {s : Nat}
    (hmem : (w, s) ∈ l) (hdom : ∀ e ∈ l, e ≠ (w, s) → e.2 < s) :
    maxValues l = s := by
  refine Nat.le_antisymm (maxValues_le ?_) (le_maxValues hmem)
  intro e he
  by_cases h : e = (w, s)
  · rw [h]
  · exact Nat.le_of_lt (hdom e he h)

theorem determine_final_winner_unique (room : GameRoom) {w : String} {s : Nat}
    (hmem : (w, s) ∈ room.scores) (hnodup : (room.scores.map Prod.fst).Nodup)
    (hdom : ∀ e ∈ room.scores, e ≠ (w, s) → e.2 < s) :
    room.determine_final_winner = some w := by
  unfold GameRoom.determine_final_winner
  rw [maxValues_eq_of_dom hmem hdom, unique_max_filter hmem hnodup hdom]


theorem determine_final_winner_tie (room : GameRoom) {w1 w2 : String} {s : Nat}
    (h1 : (w1, s) ∈ room.scores) (h2 : (w2, s) ∈ room.scores) (hne : w1 ≠ w2)
    (hmax : maxValues room.scores = s) :
    room.determine_final_winner = none := by
  unfold GameRoom.determine_final_winner
  have m1 : (w1, s) ∈ room.scores.filter (fun e => e.2 == maxValues room.scores) :=
    List.mem_filter.mpr ⟨h1, by simp [hmax]⟩
  have m2 : (w2, s) ∈ room.scores.filter (fun e => e.2 == maxValues room.scores) :=
    List.mem_filter.mpr ⟨h2, by simp [hmax]⟩
  cases hf : room.scores.filter (fun e => e.2 == maxValues room.scores) with
  | nil => exact absurd (hf ▸ m1) (List.not_mem_nil _)
  | cons x t =>
      cases t with
      | nil =>
          have m1x : (w1, s) ∈ [x] := hf ▸ m1
          have m2x : (w2, s) ∈ [x] := hf ▸ m2
          have e1 : (w1, s) = x := by simpa using m1x
          have e2 : (w2, s) = x := by simpa using m2x
          have : w1 = w2 := congrArg Prod.fst (e1.trans e2.symm)
          exact absurd this hne
      | cons y t2 => rfl

/-! Shape lemmas for `process_round`: the explicit value it takes in each
of its branches. -/

theorem process_round_err_invalid (room : GameRoom)
    (hcalc : room.calculate_round_result = CalcResult.invalidPlayers) :
    room.process_round = Except.error ProcErr.invalidPlayers := by
  unfold GameRoom.process_round
  rw [hcalc]

theorem process_round_err_missing (room : GameRoom)
    (hcalc : room.calculate_round_result = CalcResult.panicked) :
    room.process_round = Except.error ProcErr.panicked := by
  unfold GameRoom.process_round
  rw [hcalc]

theorem process_round_err_score (room : GameRoom) (result : GameResult)
    (hcalc : room.calculate_round_result = CalcResult.ok result)
    (hs : (match result.winner with
            | some winner_id => ainc room.scores winner_id
            | none => some room.scores) = none) :
    room.process_round = Except.error ProcErr.panicked := by
  unfold GameRoom.process_round
  rw [hcalc]
  simp only [hs]

theorem process_round_eq_end (room : GameRoom) (result : GameResult)
    (ns : List (String × Nat))
    (hcalc : room.calculate_round_result = CalcResult.ok result)
    (hs : (match result.winner with
            | some winner_id => ainc room.scores winner_id
            | none => some room.scores) = some ns)
    (hend : ({ room with scores := ns } : GameRoom).should_end_game = true) :
    room.process_round = Except.ok
      ({ room with scores := ns, status := GameStatus.finished },
       { round := result.round, winner := result.winner,
         moves := result.moves, scores := ns },
       FollowupMsg.gameEnd
         ({ room with scores := ns, status := GameStatus.finished } :
           GameRoom).determine_final_winner ns) := by
  unfold GameRoom.process_round
  rw [hcalc]
  simp only [hs, hend, GameRoom.end_game, if_true]

theorem process_round_eq_next (room : GameRoom) (result : GameResult)
    (ns : List (String × Nat))
    (hcalc : room.calculate_round_result = CalcResult.ok result)
    (hs : (match result.winner with
            | some winner_id => ainc room.scores winner_id
            | none => some room.scores) = some ns)
    (hend : ({ room with scores := ns } : GameRoom).should_end_game = false) :
    room.process_round = Except.ok
      ({ room with
          scores := ns
          current_round := room.current_round + 1
          moves := [] },
       { round := result.round, winner := result.winner,
         moves := result.moves, scores := ns },
       FollowupMsg.nextRound (room.current_round + 1)) := by
  unfold GameRoom.process_round
  rw [hcalc]
  simp only [hs, hend, GameRoom.next_round, Bool.false_eq_true, if_false]

/-! Shape lemmas for `GameManager.submit_move`. -/

theorem manager_submit_none (gm : GameManager) (pid : String) (c : GameChoice)
    (now : Nat) (hg : gm.get_player_room pid = none) :
    gm.submit_move pid c now = Except.ok (gm, false) := by
  unfold GameManager.submit_move
  rw [hg]

theorem manager_submit_notready (gm : GameManager) (pid : String) (c : GameChoice)
    (now : Nat) (rid : String) (room room1 : GameRoom)
    (hg : gm.get_player_room pid = some (rid, room))
    (hstep : room.submit_move pid c now = (room1, false)) :
    gm.submit_move pid c now =
      Except.ok ({ gm with rooms := ainsert gm.rooms rid room1 }, true) := by
  unfold GameManager.submit_move
  simp only [hg]
  rw [hstep]
  simp

theorem manager_submit_ready_ok (gm : GameManager) (pid : String) (c : GameChoice)
    (now : Nat) (rid : String) (room room1 room2 : GameRoom) (rr : RoundResultMsg)
    (fm : FollowupMsg)
    (hg : gm.get_player_room pid = some (rid, room))
    (hstep : room.submit_move pid c now = (room1, true))
    (hproc : room1.process_round = Except.ok (room2, rr, fm)) :
    gm.submit_move pid c now =
      Except.ok ({ gm with rooms := ainsert gm.rooms rid room2 }, true) := by
  unfold GameManager.submit_move
  simp only [hg]
  rw [hstep]
  simp only [hproc]
  simp

theorem manager_submit_ready_err (gm : GameManager) (pid : String) (c : GameChoice)
    (now : Nat) (rid : String) (room room1 : GameRoom) (e : ProcErr)
    (hg : gm.get_player_room pid = some (rid, room))
    (hstep : room.submit_move pid c now = (room1, true))
    (hproc : room1.process_round = Except.error e) :
    gm.submit_move pid c now = Except.error e := by
  unfold GameManager.submit_move
  simp only [hg]
  rw [hstep]
  simp only [hproc]
  simp

theorem room_submit_move_rejects (room : GameRoom) (pid : String) (c : GameChoice)
    (now : Nat)
    (h : room.status ≠ GameStatus.playing ∨ room.players.contains pid = false) :
    room.submit_move pid c now = (room, false) := by
  unfold GameRoom.submit_move
  rcases h with h | h
  · rw [if_pos h]
  · by_cases hs : room.status ≠ GameStatus.playing
    · rw [if_pos hs]
    · rw [if_neg hs, if_pos (by simpa using h)]

/-- Inversion for a successful `process_round`: the broadcast round result
carries the winner computed by `calculate_round_result` and the updated
scores map. -/
theorem process_round_ok_inv (room : GameRoom)
    (x : GameRoom × RoundResultMsg × FollowupMsg)
    (h : room.process_round = Except.ok x) :
    ∃ result ns, room.calculate_round_result = CalcResult.ok result ∧
      (match result.winner with
        | some winner_id => ainc room.scores winner_id
        | none => some room.scores) = some ns ∧
      x.2.1.winner = result.winner ∧ x.2.1.scores = ns := by
  cases hcalc : room.calculate_round_result with
  | invalidPlayers =>
      rw [process_round_err_invalid room hcalc] at h
      cases h
  | panicked =>
      rw [process_round_err_missing room hcalc] at h
      cases h
  | ok result =>
      cases hs : (match result.winner with
                  | some winner_id => ainc room.scores winner_id
                  | none => some room.scores) with
      | none =>
          rw [process_round_err_score room result hcalc hs] at h
          cases h
      | some ns =>
          refine ⟨result, ns, rfl, hs, ?_⟩
          cases hend : ({ room with scores := ns } : GameRoom).should_end_game with
          | true =>
              rw [process_round_eq_end room result ns hcalc hs hend] at h
              injection h with h1
              rw [← h1]
              exact ⟨rfl, rfl⟩
          | false =>
              rw [process_round_eq_next room result ns hcalc hs hend] at h
              injection h with h1
              rw [← h1]
              exact ⟨rfl, rfl⟩

/-! Claim theorems. -/

/-- Claim C7: the Choice Resolver is antisymmetric (if a beats b then b
does not beat a), irreflexive (a never beats itself, so equal moves
resolve to a draw with no winner in `calculate_round_result`), and each
symbol beats exactly one of the other two. -/
theorem choice_resolver_cycle :
    ∀ a b : GameChoice,
      (a.beats b && b.beats a) = false ∧
      a.beats a = false ∧
      (allChoices.filter a.beats).length = 1 ∧
      (sameChoiceRoom a).calculate_round_result = CalcResult.ok
        { round := 1, winner := none,
          moves := [("p1", a), ("p2", a)],
          scores := [("p1", 0), ("p2", 0)] } := by
  decide

/-- Claim C8: `end_game` sets the status to Finished and reports the
unique maximum-score participant as winner; when two distinct
participants share the maximum score it reports no winner. -/
theorem finish_unique_max_winner (room : GameRoom) (w w1 w2 : String) (s : Nat) :
    (room.end_game).1.status = GameStatus.finished ∧
    ((w, s) ∈ room.scores → (room.scores.map Prod.fst).Nodup →
      (∀ e ∈ room.scores, e ≠ (w, s) → e.2 < s) →
      (room.end_game).2 = FollowupMsg.gameEnd (some w) room.scores) ∧
    ((w1, s) ∈ room.scores → (w2, s) ∈ room.scores → w1 ≠ w2 →
      maxValues room.scores = s →
      (room.end_game).2 = FollowupMsg.gameEnd none room.scores) := by
  refine ⟨rfl, ?_, ?_⟩
  · intro hmem hnodup hdom
    unfold GameRoom.end_game
    rw [determine_final_winner_unique
      ({ room with status := GameStatus.finished } : GameRoom) hmem hnodup hdom]
  · intro hm1 hm2 hne hmax
    unfold GameRoom.end_game
    rw [determine_final_winner_tie
      ({ room with status := GameStatus.finished } : GameRoom) hm1 hm2 hne hmax]

/-- Witness for C8: with scores A 2, B 1 the winner is A; with the tied
scores A 1, B 1 there is no winner; the status becomes Finished. -/
theorem finish_unique_max_winner_witness :
    (roomFinalAB.end_game).1.status = GameStatus.finished ∧
    (roomFinalAB.end_game).2 = FollowupMsg.gameEnd (some "A") roomFinalAB.scores ∧
    (roomFinalTie.end_game).2 = FollowupMsg.gameEnd none roomFinalTie.scores := by
  refine ⟨(finish_unique_max_winner roomFinalAB "A" "A" "B" 2).1, ?_, ?_⟩
  · exact (finish_unique_max_winner roomFinalAB "A" "A" "B" 2).2.1
      (by decide) (by decide) (by decide)
  · exact (finish_unique_max_winner roomFinalTie "A" "A" "B" 1).2.2
      (by decide) (by decide) (by decide) (by decide)

/-- Counterexample to claim C1: with p1 enqueued before p2, a match
request by p3 pairs p3 with p2 (the most recent waiter), and the
longest-waiting p1 stays in the queue unmatched. -/
theorem find_match_not_fifo :
    (gmQueue2.find_match "p3" "room1").2.matched = true ∧
    (gmQueue2.find_match "p3" "room1").1.waiting_queue = ["p1"] ∧
    alookup (gmQueue2.find_match "p3" "room1").1.player_rooms "p2" = some "room1" ∧
    alookup (gmQueue2.find_match "p3" "room1").1.player_rooms "p1" = none := by
  decide

/-- Amended claim C1: pairing pops the most recently enqueued waiter
(Vec::push/Vec::pop is a LIFO stack), so a caller is paired with the LAST
element of the waiting queue; this coincides with FIFO only when the
queue holds at most one waiter. -/
theorem find_match_pairs_most_recent (gm : GameManager) (q : List String)
    (p caller rid : String) (hq : gm.waiting_queue = q ++ [p]) :
    gm.find_match caller rid =
      ({ gm with waiting_queue := q }).create_match p caller rid := by
  unfold GameManager.find_match
  rw [hq, List.getLast?_concat, List.dropLast_concat]

/-- Witness for the amended C1 at the concrete queue p1 then p2. -/
theorem find_match_pairs_most_recent_witness :
    gmQueue2.find_match "p3" "r9" =
      ({ gmQueue2 with waiting_queue := ["p1"] }).create_match "p2" "p3" "r9" :=
  find_match_pairs_most_recent gmQueue2 ["p1"] "p2" "p3" "r9" rfl

/-- Counterexample to claim C2: player a's move ends the match (the session
reaches Finished), yet after `submit_move` returns, the session is still in
the registry and both participant mappings are still registered. -/
theorem submit_move_keeps_finished_session :
    submitBool (gmEndgame.submit_move "a" GameChoice.rock 5) = some true ∧
    (smState (gmEndgame.submit_move "a" GameChoice.rock 5)).map
        (fun g => (alookup g.player_rooms "a", alookup g.player_rooms "b")) =
      some (some "r1", some "r1") ∧
    ((smState (gmEndgame.submit_move "a" GameChoice.rock 5)).bind
        (fun g => alookup g.rooms "r1")).map GameRoom.status =
      some GameStatus.finished := by
  decide

/-- Amended claim C2: successful `GameManager.submit_move` never
deregisters anything: the participant-id mappings are left exactly as they
were and every registered session id stays registered (in particular a
session whose match just finished persists until `remove_player`). -/
theorem submit_move_never_deregisters (gm : GameManager) (pid : String)
    (c : GameChoice) (now : Nat) (rid : String) (gm2 : GameManager) (b : Bool)
    (h : gm.submit_move pid c now = Except.ok (gm2, b))
    (hr : (alookup gm.rooms rid).isSome = true) :
    gm2.player_rooms = gm.player_rooms ∧ (alookup gm2.rooms rid).isSome = true := by
  cases hg : gm.get_player_room pid with
  | none =>
      rw [manager_submit_none gm pid c now hg] at h
      injection h with h1
      injection h1 with h1a h1b
      rw [← h1a]
      exact ⟨rfl, hr⟩
  | some pr =>
      obtain ⟨rid2, room⟩ := pr
      cases hstep : room.submit_move pid c now with
      | mk room1 bb =>
          cases bb with
          | false =>
              rw [manager_submit_notready gm pid c now rid2 room room1 hg hstep] at h
              injection h with h1
              injection h1 with h1a h1b
              rw [← h1a]
              exact ⟨rfl, alookup_ainsert_isSome gm.rooms rid2 rid room1 hr⟩
          | true =>
              cases hproc : room1.process_round with
              | error e =>
                  rw [manager_submit_ready_err gm pid c now rid2 room room1 e
                    hg hstep hproc] at h
                  cases h
              | ok trip =>
                  obtain ⟨room2, rr, fm⟩ := trip
                  rw [manager_submit_ready_ok gm pid c now rid2 room room1 room2
                    rr fm hg hstep hproc] at h
                  injection h with h1
                  injection h1 with h1a h1b
                  rw [← h1a]
                  exact ⟨rfl, alookup_ainsert_isSome gm.rooms rid2 rid room2 hr⟩

/-- Witness for the amended C2 at the concrete match-ending submission. -/
theorem submit_move_never_deregisters_witness :
    gmAfterEndgame.player_rooms = gmEndgame.player_rooms ∧
    (alookup gmAfterEndgame.rooms "r1").isSome = true :=
  submit_move_never_deregisters gmEndgame "a" GameChoice.rock 5 "r1"
    gmAfterEndgame true rfl (by decide)

/-- Counterexample to claim C3: on the match-ending branch (roomBothMoved)
`process_round` leaves the moves map exactly as it was — two recorded
moves, not empty — and on the advancing branch (roomDraw) the round
counter moves from 1 to 2, not unchanged. -/
theorem process_round_end_keeps_moves :
    procMoves roomBothMoved.process_round = some roomBothMoved.moves ∧
    roomBothMoved.moves ≠ [] ∧
    procRoundNum roomBothMoved.process_round = some 2 ∧
    procMoves roomDraw.process_round = some [] ∧
    procRoundNum roomDraw.process_round = some 2 ∧
    roomDraw.current_round = 1 := by
  decide

/-- Amended claim C3: when `process_round` succeeds, either the match ends
— the status becomes Finished, the moves map is left untouched (not
cleared) and the round counter is unchanged — or it advances: the moves
map is cleared and the round counter increases by exactly 1. -/
theorem process_round_frame (room : GameRoom)
    (hok : procOk room.process_round = true) :
    (procStatus room.process_round = some GameStatus.finished ∧
     procMoves room.process_round = some room.moves ∧
     procRoundNum room.process_round = some room.current_round) ∨
    (procMoves room.process_round = some [] ∧
     procRoundNum room.process_round = some (room.current_round + 1)) := by
  cases hcalc : room.calculate_round_result with
  | invalidPlayers =>
      rw [process_round_err_invalid room hcalc] at hok
      simp [procOk] at hok
  | panicked =>
      rw [process_round_err_missing room hcalc] at hok
      simp [procOk] at hok
  | ok result =>
      cases hs : (match result.winner with
                  | some winner_id => ainc room.scores winner_id
                  | none => some room.scores) with
      | none =>
          rw [process_round_err_score room result hcalc hs] at hok
          simp [procOk] at hok
      | some ns =>
          cases hend : ({ room with scores := ns } : GameRoom).should_end_game with
          | true =>
              left
              rw [process_round_eq_end room result ns hcalc hs hend]
              exact ⟨rfl, rfl, rfl⟩
          | false =>
              right
              rw [process_round_eq_next room result ns hcalc hs hend]
              exact ⟨rfl, rfl⟩

/-- Witness for the amended C3 at the match-ending room. -/
theorem process_round_frame_witness :
    (procStatus roomBothMoved.process_round = some GameStatus.finished ∧
     procMoves roomBothMoved.process_round = some roomBothMoved.moves ∧
     procRoundNum roomBothMoved.process_round = some roomBothMoved.current_round) ∨
    (procMoves roomBothMoved.process_round = some [] ∧
     procRoundNum roomBothMoved.process_round = some (roomBothMoved.current_round + 1)) :=
  process_round_frame roomBothMoved (by decide)

/-- Counterexample to claim C4: removing player a removes a's mapping and
the session, but player b's mapping survives, now pointing at a session id
that is no longer in the registry — so the registry holds a participant-id
that is inside no active session. -/
theorem remove_player_leaves_partner_mapping :
    (gmEndgame.remove_player "a").1.player_rooms = [("b", "r1")] ∧
    alookup (gmEndgame.remove_player "a").1.player_rooms "b" = some "r1" ∧
    alookup (gmEndgame.remove_player "a").1.rooms "r1" = none := by
  decide

/-- Amended claim C4: `remove_player` removes only the departing
participant's own mapping together with the session; the other
participant's mapping is left in place, dangling on the removed session
id, until that participant departs in turn. -/
theorem remove_player_partial_cleanup (gm : GameManager) (pid other rid : String)
    (room : GameRoom)
    (hmap : alookup gm.player_rooms pid = some rid)
    (hother : alookup gm.player_rooms other = some rid)
    (hne : other ≠ pid)
    (hroom : alookup gm.rooms rid = some room) :
    alookup (gm.remove_player pid).1.player_rooms pid = none ∧
    alookup (gm.remove_player pid).1.player_rooms other = some rid ∧
    alookup (gm.remove_player pid).1.rooms rid = none := by
  unfold GameManager.remove_player
  simp only [hmap, hroom]
  refine ⟨alookup_aremove_self gm.player_rooms pid, ?_,
    alookup_aremove_self gm.rooms rid⟩
  rw [alookup_aremove_ne gm.player_rooms pid other hne]
  exact hother

/-- Witness for the amended C4 at the concrete two-player session. -/
theorem remove_player_partial_cleanup_witness :
    alookup (gmEndgame.remove_player "a").1.player_rooms "a" = none ∧
    alookup (gmEndgame.remove_player "a").1.player_rooms "b" = some "r1" ∧
    alookup (gmEndgame.remove_player "a").1.rooms "r1" = none :=
  remove_player_partial_cleanup gmEndgame "a" "b" "r1" roomEndgame
    (by decide) (by decide) (by decide) (by decide)

/-- Claim C5: the broadcast round outcome carries the scores after the
round was applied: a winner's entry is its pre-round score plus one, a
non-winner's entry is unchanged, and on a draw the whole snapshot equals
the pre-round scores. -/
theorem round_result_score_snapshot (room : GameRoom) (w p : String) (s : Nat) :
    (procWinner room.process_round = some (some w) →
      alookup room.scores w = some s →
      procScoreOf room.process_round w = some (s + 1)) ∧
    (procWinner room.process_round = some (some w) → p ≠ w →
      procScoreOf room.process_round p = alookup room.scores p) ∧
    (procWinner room.process_round = some none →
      procScores room.process_round = some room.scores) := by
  refine ⟨?_, ?_, ?_⟩
  · intro hw hsc
    cases hpr : room.process_round with
    | error e =>
        rw [hpr] at hw
        simp [procWinner] at hw
    | ok x =>
        obtain ⟨result, ns, hcalc, hs, hxw, hxs⟩ := process_round_ok_inv room x hpr
        rw [hpr] at hw
        simp only [procWinner, Option.some.injEq] at hw
        rw [hxw] at hw
        rw [hw] at hs
        simp only [ainc, hsc] at hs
        injection hs with hns
        simp only [procScoreOf]
        rw [hxs, ← hns]
        exact alookup_ainsert_self room.scores w (s + 1)
  · intro hw hp
    cases hpr : room.process_round with
    | error e =>
        rw [hpr] at hw
        simp [procWinner] at hw
    | ok x =>
        obtain ⟨result, ns, hcalc, hs, hxw, hxs⟩ := process_round_ok_inv room x hpr
        rw [hpr] at hw
        simp only [procWinner, Option.some.injEq] at hw
        rw [hxw] at hw
        rw [hw] at hs
        simp only [ainc] at hs
        cases hsc : alookup room.scores w with
        | none =>
            rw [hsc] at hs
            cases hs
        | some v =>
            rw [hsc] at hs
            injection hs with hns
            simp only [procScoreOf]
            rw [hxs, ← hns]
            exact alookup_ainsert_ne room.scores w p (v + 1) hp
  · intro hw
    cases hpr : room.process_round with
    | error e =>
        rw [hpr] at hw
        simp [procWinner] at hw
    | ok x =>
        obtain ⟨result, ns, hcalc, hs, hxw, hxs⟩ := process_round_ok_inv room x hpr
        rw [hpr] at hw
        simp only [procWinner, Option.some.injEq] at hw
        rw [hxw] at hw
        rw [hw] at hs
        injection hs with hns
        simp only [procScores]
        rw [hxs, ← hns]

/-- Witness for C5: in roomBothMoved the winner a moves from score 1 to 2
while b stays at 0; in the drawn roomDraw the broadcast snapshot equals
the pre-round scores. -/
theorem round_result_score_snapshot_witness :
    procScoreOf roomBothMoved.process_round "a" = some 2 ∧
    procScoreOf roomBothMoved.process_round "b" = alookup roomBothMoved.scores "b" ∧
    procScores roomDraw.process_round = some roomDraw.scores := by
  refine ⟨?_, ?_, ?_⟩
  · exact (round_result_score_snapshot roomBothMoved "a" "b" 1).1
      (by decide) (by decide)
  · exact (round_result_score_snapshot roomBothMoved "a" "b" 1).2.1
      (by decide) (by decide)
  · exact (round_result_score_snapshot roomDraw "a" "b" 0).2.2 (by decide)

/-- Counterexample to claim C6: with the configured two players but only
one recorded move, `calculate_round_result` panics (an unchecked HashMap
index), instead of returning the invalid-state error the claim promises
for every violated precondition. -/
theorem calc_round_panics_on_missing_move :
    roomMissingMove.calculate_round_result = CalcResult.panicked ∧
    roomMissingMove.calculate_round_result ≠ CalcResult.invalidPlayers := by
  decide

/-- Amended claim C6: `calculate_round_result` returns the invalid-state
error exactly when the participant count differs from two; with exactly
two participants it panics precisely when one of them has no recorded
move (and succeeds otherwise), so a missing move is a panic, not an error
return. -/
theorem calc_round_failure_modes (room : GameRoom) (p1 p2 : String) :
    (room.calculate_round_result = CalcResult.invalidPlayers ↔
      room.players.length ≠ 2) ∧
    (room.players = [p1, p2] →
      (room.calculate_round_result = CalcResult.panicked ↔
        (alookup room.moves p1 = none ∨ alookup room.moves p2 = none))) := by
  constructor
  · unfold GameRoom.calculate_round_result
    cases hp : room.players with
    | nil => simp
    | cons a t =>
        cases t with
        | nil => simp
        | cons b t2 =>
            cases t2 with
            | nil =>
                cases h1 : alookup room.moves a with
                | none => simp [h1]
                | some m1 =>
                    cases h2 : alookup room.moves b with
                    | none => simp [h1, h2]
                    | some m2 => simp [h1, h2]
            | cons c t3 => simp
  · intro hp
    unfold GameRoom.calculate_round_result
    rw [hp]
    cases h1 : alookup room.moves p1 with
    | none => simp [h1]
    | some m1 =>
        cases h2 : alookup room.moves p2 with
        | none => simp [h1, h2]
        | some m2 => simp [h1, h2]

/-- Witness for the amended C6: a missing move with two players panics; a
one-player room yields the invalid-state error. -/
theorem calc_round_failure_modes_witness :
    roomMissingMove.calculate_round_result = CalcResult.panicked ∧
    roomOnePlayer.calculate_round_result = CalcResult.invalidPlayers := by
  constructor
  · exact ((calc_round_failure_modes roomMissingMove "a" "b").2 (by decide)).mpr
      (Or.inr (by decide))
  · exact (calc_round_failure_modes roomOnePlayer "a" "b").1.mpr (by decide)

/-- Claim C10: `GameManager.submit_move` reports false exactly when no
session is found for the caller; when a session is found it reports true
even when the session rejected the move (status not Playing, or the id not
among the session's players), and a successful return with a session found
never carries false. -/
theorem submit_move_signals_found (gm : GameManager) (pid : String)
    (c : GameChoice) (now : Nat) (rid : String) (room : GameRoom) :
    (gm.get_player_room pid = none →
      gm.submit_move pid c now = Except.ok (gm, false)) ∧
    (gm.get_player_room pid = some (rid, room) →
      (room.status ≠ GameStatus.playing ∨ room.players.contains pid = false) →
      gm.submit_move pid c now =
        Except.ok ({ gm with rooms := ainsert gm.rooms rid room }, true)) ∧
    (gm.get_player_room pid = some (rid, room) →
      submitBool (gm.submit_move pid c now) ≠ some false) := by
  refine ⟨?_, ?_, ?_⟩
  · intro hg
    exact manager_submit_none gm pid c now hg
  · intro hg hrej
    exact manager_submit_notready gm pid c now rid room room hg
      (room_submit_move_rejects room pid c now hrej)
  · intro hg
    cases hstep : room.submit_move pid c now with
    | mk room1 bb =>
        cases bb with
        | false =>
            rw [manager_submit_notready gm pid c now rid room room1 hg hstep]
            simp [submitBool]
        | true =>
            cases hproc : room1.process_round with
            | error e =>
                rw [manager_submit_ready_err gm pid c now rid room room1 e
                  hg hstep hproc]
                simp [submitBool]
            | ok trip =>
                obtain ⟨room2, rr, fm⟩ := trip
                rw [manager_submit_ready_ok gm pid c now rid room room1 room2
                  rr fm hg hstep hproc]
                simp [submitBool]

/-- Witness for C10: an unmapped caller gets false; player a, mapped to
the already-Finished roomDone, has its move rejected yet gets true. -/
theorem submit_move_signals_found_witness :
    gmDone.submit_move "z" GameChoice.rock 0 = Except.ok (gmDone, false) ∧
    gmDone.submit_move "a" GameChoice.rock 0 =
      Except.ok ({ gmDone with rooms := ainsert gmDone.rooms "r1" roomDone }, true) := by
  constructor
  · exact (submit_move_signals_found gmDone "z" GameChoice.rock 0 "r1" roomDone).1
      (by decide)
  · exact (submit_move_signals_found gmDone "a" GameChoice.rock 0 "r1" roomDone).2.1
      (by decide) (Or.inl (by decide))

end RPS
